import Mathlib

/-!
# ClauseForge-AI backend: verification of the compliance, RAG and comparison cores

Shallow embedding of the algorithmic core of the ClauseForge-AI backend
(`backend/services/compliance.py`, `backend/services/rag.py`,
`backend/services/document_comparison.py`,
`backend/repositories/document_comparison.py`) together with theorems that
settle the specification claims about it.

Modelling conventions:
* Python strings are `List Char` (`Text`); Python `len`, slicing, `str.strip`,
  `str.lower` and substring tests are modelled by the executable helpers below.
* Python floats are modelled as rationals (`ℚ`); `int(...)` truncation toward
  zero is `pyInt`.
* The regex patterns appearing in the verified claims are literal words, so
  `re.compile(p, re.IGNORECASE)` / `finditer` is modelled as case-insensitive
  literal scanning with the same non-overlapping left-to-right semantics
  (`scanMatches`).  `re.error` for an uncompilable pattern is modelled by the
  unbalanced-parenthesis check `regexCompiles` (the failure mode exercised by
  the claims) and an `Except` layer.
* Database / network effects are passed in explicitly: the chunk store, the
  stored-comparison table and the LLM are arguments of the functions that use
  them.
-/

namespace ClauseForge

/-! ## Text model -/

/-- Python strings, modelled as lists of characters. -/
abbrev Text := List Char

/-- Coerce a Lean string literal to the `Text` model. -/
def str (s : String) : Text := s.data

/-- Python `str.strip()` (whitespace on both ends). -/
def pyStrip (l : Text) : Text :=
  ((l.dropWhile Char.isWhitespace).reverse.dropWhile Char.isWhitespace).reverse

/-- Python `int(q)`: truncation toward zero. -/
def pyInt (q : ℚ) : ℤ := if 0 ≤ q then ⌊q⌋ else -⌊-q⌋

/-- Python slice-from-start `s[:k]`, where a negative `k` counts from the end. -/
def pyTake (l : Text) (k : Int) : Text :=
  if 0 ≤ k then l.take k.toNat else l.take (l.length - (-k).toNat)

/-- Python `needle in hay` for strings: substring containment. -/
def isSubstrOf (needle hay : Text) : Bool :=
  (List.range (hay.length + 1)).any (fun i => (hay.drop i).take needle.length == needle)

/-- Decimal rendering of a natural number (Python `str(n)` for `n ≥ 0`). -/
def natChars (n : Nat) : Text := (toString n).data

/-! ## Case-insensitive literal pattern matching
(`ComplianceEngine._find_pattern_matches`, `re.IGNORECASE`) -/

/-- `i` is a case-insensitive match position of the literal pattern `p` in `t`.
The `take`/`map` equation forces the slice to have full length `p.length`,
so a match position always satisfies `i + p.length ≤ t.length`. -/
def matchesAt (t p : Text) (i : Nat) : Bool :=
  ((t.drop i).take p.length).map Char.toLower == p.map Char.toLower

/-- Left-to-right non-overlapping scan, as `re.finditer`: after a match of
length `L` at `i` the scan resumes at `i + max L 1`.  `fuel` bounds the
recursion; `t.length + 1` is always enough. -/
def scanAux (p t : Text) : Nat → Nat → List Nat
  | _, 0 => []
  | i, fuel + 1 =>
    if i + p.length ≤ t.length then
      if matchesAt t p i then i :: scanAux p t (i + max p.length 1) fuel
      else scanAux p t (i + 1) fuel
    else []

/-- All match positions of `re.finditer(re.compile(p, re.IGNORECASE), t)`
for a literal pattern `p`. -/
def scanMatches (p t : Text) : List Nat := scanAux p t 0 (t.length + 1)

/-! ## Compliance engine data model (`backend/services/compliance.py`) -/

/-- `RiskLevel` enumeration. -/
inductive RiskLevel where
  | low | medium | high | critical
  deriving DecidableEq, Repr

/-- `ComplianceStatus` enumeration. -/
inductive ComplianceStatus where
  | compliant | non_compliant | review_required
  deriving DecidableEq, Repr

/-- `DocumentChunk` (the fields the compliance/RAG cores read: `text`,
`page`, `chunk_no`). -/
structure DocumentChunk where
  text : Text
  page : Option Nat
  chunk_no : Nat
  deriving DecidableEq, Repr

/-- `ComplianceRule` dataclass. -/
structure ComplianceRule where
  id : Text
  name : Text
  description : Text
  clause_type : Text
  required : Bool
  patterns : List Text
  risk_weight : ℚ
  recommendations : List Text
  deriving DecidableEq, Repr

/-- `ClauseMatch` dataclass. -/
structure ClauseMatch where
  clause_type : Text
  text : Text
  confidence : ℚ
  page : Nat
  risk_level : RiskLevel
  matched_rule : Option Text
  deriving DecidableEq, Repr

/-- `ComplianceResult` dataclass. -/
structure ComplianceResult where
  rule_id : Text
  rule_name : Text
  status : ComplianceStatus
  matched_clauses : List ClauseMatch
  missing_clause : Bool
  risk_score : ℚ
  recommendations : List Text
  deriving DecidableEq, Repr

/-- A single pattern match produced by `_find_pattern_matches` (the dict keys
read downstream: `text` is the ±100-character context, `matched_text` the
literal match, plus `confidence` and `page`). -/
structure PatternMatch where
  text : Text
  matched_text : Text
  confidence : ℚ
  page : Nat
  deriving DecidableEq, Repr

/-- The legal-register keyword list of `_calculate_match_confidence`. -/
def legalKeywords : List Text :=
  [str "shall", str "agreement", str "contract", str "party", str "parties",
   str "liability", str "damages", str "breach", str "termination", str "clause"]

/-- `ComplianceEngine._calculate_match_confidence`. -/
def calculateMatchConfidence (pattern context matched : Text) : ℚ :=
  let base : ℚ :=
    if pattern.map Char.toLower == matched.map Char.toLower then 7/10 + 2/10 else 7/10
  let contextLower := context.map Char.toLower
  let keywordMatches : ℕ :=
    (legalKeywords.filter (fun k => isSubstrOf k contextLower)).length
  let boost : ℚ := min (1/10) ((keywordMatches : ℚ) * (2/100))
  min 1 (base + boost)

/-- Python `chunk.page or 1` (both `None` and `0` fall back to `1`). -/
def pageOr1 (p : Option Nat) : Nat :=
  match p with
  | some n => if n = 0 then 1 else n
  | none => 1

/-- `ComplianceEngine._find_pattern_matches`: scan every chunk, extract the
±100-character stripped context and score each match. -/
def findPatternMatches (pattern : Text) (chunks : List DocumentChunk) :
    List PatternMatch :=
  chunks.flatMap (fun chunk =>
    (scanMatches pattern chunk.text).map (fun i =>
      let matched := (chunk.text.drop i).take pattern.length
      let s := i - 100
      let e := min chunk.text.length (i + pattern.length + 100)
      let context := pyStrip ((chunk.text.drop s).take (e - s))
      { text := context
        matched_text := matched
        confidence := calculateMatchConfidence pattern context matched
        page := pageOr1 chunk.page }))

/-- `ComplianceEngine._determine_clause_risk_level`. -/
def determineClauseRiskLevel (confidence : ℚ) : RiskLevel :=
  if confidence ≥ 9/10 then .low
  else if confidence ≥ 7/10 then .medium
  else if confidence ≥ 1/2 then .high
  else .critical

/-- The `matched_clauses` list built by the pattern loop of
`ComplianceEngine._evaluate_rule`. -/
def ruleMatchedClauses (rule : ComplianceRule) (chunks : List DocumentChunk) :
    List ClauseMatch :=
  rule.patterns.flatMap (fun pattern =>
    (findPatternMatches pattern chunks).map (fun m =>
      { clause_type := rule.clause_type
        text := m.text
        confidence := m.confidence
        page := m.page
        risk_level := determineClauseRiskLevel m.confidence
        matched_rule := some rule.id }))

/-- `ComplianceEngine._evaluate_rule` (the status / missing-clause / risk
decision; `_find_pattern_matches` searches the chunks, the joined
`document_text` parameter of the Python function is not read by it). -/
def evaluateRule (rule : ComplianceRule) (chunks : List DocumentChunk) :
    ComplianceResult :=
  let matched_clauses := ruleMatchedClauses rule chunks
  let smr : ComplianceStatus × Bool × ℚ :=
    if rule.required = true ∧ matched_clauses = [] then
      (.non_compliant, true, rule.risk_weight * 100)
    else if matched_clauses ≠ [] then
      let avg : ℚ :=
        (matched_clauses.map ClauseMatch.confidence).sum / matched_clauses.length
      if avg ≥ 8/10 then (.compliant, false, 0)
      else if avg ≥ 1/2 then (.review_required, false, rule.risk_weight * 30)
      else (.non_compliant, false, rule.risk_weight * 70)
    else (.compliant, false, 0)
  { rule_id := rule.id
    rule_name := rule.name
    status := smr.1
    matched_clauses := matched_clauses
    missing_clause := smr.2.1
    risk_score := smr.2.2
    recommendations :=
      if smr.1 ≠ ComplianceStatus.compliant then rule.recommendations else [] }

/-- `ComplianceEngine._calculate_overall_risk_score`. -/
def calculateOverallRiskScore (results : List ComplianceResult) : ℤ :=
  if results = [] then 0
  else
    let total : ℚ := (results.map ComplianceResult.risk_score).sum
    let maxPossible : ℚ := (results.length : ℚ) * 100
    let normalized : ℤ :=
      if maxPossible > 0 then pyInt (total / maxPossible * 100) else 0
    min 100 normalized

/-- `ComplianceEngine._get_risk_category`. -/
def getRiskCategory (riskScore : ℤ) : Text :=
  if riskScore ≥ 80 then str "Critical"
  else if riskScore ≥ 60 then str "High"
  else if riskScore ≥ 30 then str "Medium"
  else str "Low"

/-- `ComplianceEngine._determine_compliance_status`. -/
def determineComplianceStatus (results : List ComplianceResult) :
    ComplianceStatus :=
  if results = [] then .compliant
  else if 0 < (results.filter (fun r => r.status = ComplianceStatus.non_compliant)).length then
    .non_compliant
  else if 0 < (results.filter (fun r => r.status = ComplianceStatus.review_required)).length then
    .review_required
  else .compliant

/-! ## Exception layer for rule evaluation
(`re.compile` inside `_find_pattern_matches` raises `re.error` on an
uncompilable pattern, e.g. an unbalanced group; `analyze_document` runs the
rule loop with no per-rule exception handler, so such an error propagates.) -/

/-- Depth-counting scan for balanced parenthesis groups. -/
def parenScan : Nat → Text → Bool
  | d, [] => d = 0
  | d, c :: cs =>
    if c = '(' then parenScan (d + 1) cs
    else if c = ')' then
      match d with
      | 0 => false
      | d' + 1 => parenScan d' cs
    else parenScan d cs

/-- Whether `re.compile(p)` succeeds, restricted to the failure mode the
claims exercise: an unbalanced group such as `"("` raises `re.error`. -/
def regexCompiles (p : Text) : Bool := parenScan 0 p

/-- `_evaluate_rule` with the `re.error` exception made explicit: evaluating a
rule whose pattern list contains an uncompilable pattern raises instead of
returning a result. -/
def evaluateRuleE (rule : ComplianceRule) (chunks : List DocumentChunk) :
    Except String ComplianceResult :=
  if rule.patterns.all regexCompiles then .ok (evaluateRule rule chunks)
  else .error "re.error: missing ), unterminated subpattern"

/-- The rule loop of `ComplianceEngine.analyze_document`
(`for rule in rules: compliance_results.append(await self._evaluate_rule(...))`):
no try/except around the body, so a raising rule aborts the whole loop. -/
def analyzeRulesE (rules : List ComplianceRule) (chunks : List DocumentChunk) :
    Except String (List ComplianceResult) :=
  rules.mapM (fun r => evaluateRuleE r chunks)

/-! ## MMR reranking (`SemanticSearchService._apply_mmr_reranking`)

The selection logic is embedded over the candidate indices `0 .. n-1`
(`chunk_results` is index-addressed in the Python code).  The two numeric
oracles the loop reads — `cosine_similarity(query_vec, chunk_vecs[i])` and
`cosine_similarity(chunk_vecs[i], chunk_vecs[j])` — are passed in as `rel`
and `sim`; the selection logic itself is translated line by line. -/

/-- `np.max(cosine_similarity(chunk_vecs[i], selected_vecs)[0])`: the maximal
similarity of candidate `i` to the already-selected candidates (`0` when the
selected set is empty, matching the `else` branch of the Python code). -/
def maxSimToSelected (sim : Nat → Nat → ℚ) (i : Nat) : List Nat → ℚ
  | [] => 0
  | j :: js => js.foldl (fun a j' => max a (sim i j')) (sim i j)

/-- The MMR score `lambda_param * relevance - (1 - lambda_param) * max_similarity`. -/
def mmrScore (rel : Nat → ℚ) (sim : Nat → Nat → ℚ) (lam : ℚ)
    (selected : List Nat) (i : Nat) : ℚ :=
  lam * rel i - (1 - lam) * maxSimToSelected sim i selected

/-- Python `max(candidates, key=f)`: the first element attaining the maximal
score (a later element replaces the current best only when strictly greater). -/
def argmaxFirst (f : Nat → ℚ) : List Nat → Option Nat
  | [] => none
  | x :: xs => some (xs.foldl (fun b i => if f b < f i then i else b) x)

/-- The `while len(selected_indices) < limit and remaining_indices:` loop;
`fuel` is the number of picks still allowed (`limit - 1` initially, since the
first candidate is pre-selected). -/
def mmrSelectAux (rel : Nat → ℚ) (sim : Nat → Nat → ℚ) (lam : ℚ) :
    List Nat → List Nat → Nat → List Nat
  | selected, _, 0 => selected
  | selected, remaining, fuel + 1 =>
    match argmaxFirst (mmrScore rel sim lam selected) remaining with
    | none => selected
    | some b => mmrSelectAux rel sim lam (selected ++ [b]) (remaining.erase b) fuel

/-- `SemanticSearchService._apply_mmr_reranking`, as the list of selected
candidate indices: short-circuit when the pool fits in `limit`, otherwise
pre-select index `0` (the pool is sorted by similarity) and pick the rest
by maximal MMR score. -/
def applyMmrReranking (n : Nat) (rel : Nat → ℚ) (sim : Nat → Nat → ℚ)
    (limit : Nat) (lam : ℚ) : List Nat :=
  if n ≤ limit then List.range n
  else mmrSelectAux rel sim lam [0] ((List.range n).erase 0) (limit - 1)

/-! ## Search results, context assembly and the RAG query
(`backend/services/rag.py`) -/

/-- `Document` (the field the RAG core reads: `title`; `id` identifies it). -/
structure Document where
  id : Nat
  title : Text
  deriving DecidableEq, Repr

/-- `SearchResult` dataclass. -/
structure SearchResult where
  chunk : DocumentChunk
  similarity_score : ℚ
  document : Option Document
  context_chunks : Option (List DocumentChunk)
  deriving DecidableEq, Repr

/-- `Citation` dataclass (`document_id`/`chunk_id` are the modelled ids). -/
structure Citation where
  document_id : Nat
  document_title : Text
  page : Option Nat
  text : Text
  relevance_score : ℚ
  deriving DecidableEq, Repr

/-- `RAGResponse` dataclass.  `processing_time` is wall-clock time and is not
modelled. -/
structure RAGResponse where
  answer : Text
  citations : List Citation
  confidence : ℚ
  model_used : Text
  context_used : Text
  deriving DecidableEq, Repr

/-- Stable insertion into a list sorted ascending by `key` (ties keep the
existing element first, as Python's stable `sorted`). -/
def insertByKey {α : Type} (key : α → Nat) (a : α) : List α → List α
  | [] => [a]
  | b :: bs => if key a ≤ key b then a :: b :: bs else b :: insertByKey key a bs

/-- Python `sorted(l, key=key)`: stable ascending sort. -/
def sortByKey {α : Type} (key : α → Nat) : List α → List α
  | [] => []
  | a :: as => insertByKey key a (sortByKey key as)

/-- `" (Page {p})"` when the chunk has a truthy page, `""` otherwise
(`if chunk.page` is false for both `None` and `0`). -/
def pageInfo (p : Option Nat) : Text :=
  match p with
  | some n => if n = 0 then [] else str " (Page " ++ natChars n ++ str ")"
  | none => []

/-- The per-result section text built inside `get_context_window`: a header
naming the source document, followed by the stripped text of the context
chunks sorted by `chunk_no` (or just the main chunk when there are none). -/
def sectionTextOf (r : SearchResult) : Text :=
  let chunksToInclude : List DocumentChunk :=
    match r.context_chunks with
    | some l => if l = [] then [r.chunk] else sortByKey DocumentChunk.chunk_no l
    | none => [r.chunk]
  let title : Text :=
    match r.document with
    | some d => d.title
    | none => str "Unknown Document"
  let header := str "\n--- From: " ++ title ++ str " ---\n"
  chunksToInclude.foldl
    (fun acc c => acc ++ pyStrip c.text ++ pageInfo c.page ++ str "\n") header

/-- The section kept when the very first section alone exceeds the limit:
`section_text[:max_context_length - 100] + "\n[... truncated ...]"`. -/
def truncatedSection (s : Text) (maxLen : Nat) : Text :=
  pyTake s ((maxLen : Int) - 100) ++ str "\n[... truncated ...]"

/-- The accumulation loop of `get_context_window` over the section texts,
carrying `current_length`: a section that would exceed the limit stops the
loop — it is truncated and kept only when it is the first one
(`current_length == 0`), otherwise it is dropped together with every later
section. -/
def contextLoop (maxLen : Nat) : List Text → Nat → List Text
  | [], _ => []
  | s :: rest, curLen =>
    if curLen + s.length > maxLen then
      if curLen = 0 then [truncatedSection s maxLen] else []
    else s :: contextLoop maxLen rest (curLen + s.length)

/-- `SemanticSearchService.get_context_window`. -/
def getContextWindow (results : List SearchResult) (maxLen : Nat) : Text :=
  List.intercalate (str "\n") (contextLoop maxLen (results.map sectionTextOf) 0)

/-- Stable insertion into a list sorted descending by the rational `key`
(ties keep the existing order, as Python's stable `sort(reverse=True)`). -/
def insertByKeyDescQ {α : Type} (key : α → ℚ) (a : α) : List α → List α
  | [] => [a]
  | b :: bs => if key b ≤ key a then a :: b :: bs else b :: insertByKeyDescQ key a bs

/-- Python `l.sort(key=key, reverse=True)`: stable descending sort. -/
def sortByKeyDescQ {α : Type} (key : α → ℚ) : List α → List α
  | [] => []
  | a :: as => insertByKeyDescQ key a (sortByKeyDescQ key as)

/-- `SemanticSearchService.extract_citations` (the `response_text` parameter
is not read by the Python function); citations are sorted by relevance,
descending. -/
def extractCitations (results : List SearchResult) : List Citation :=
  let citations := (results.filter (fun r => r.document ≠ none)).map
    (fun r =>
      ({ document_id := (r.document.map Document.id).getD 0
         document_title := (r.document.map Document.title).getD []
         page := r.chunk.page
         text :=
           if r.chunk.text.length > 200 then r.chunk.text.take 200 ++ str "..."
           else r.chunk.text
         relevance_score := r.similarity_score } : Citation))
  sortByKeyDescQ Citation.relevance_score citations

/-- The fixed no-results answer of `RAGService.query`. -/
def noResultsAnswer : Text :=
  str "I couldn't find any relevant information in the uploaded documents to answer your question. Please make sure the documents contain information related to your query, or try rephrasing your question."

/-- `RAGService.query`, embedded over the outcome of the semantic search and
an explicit LLM oracle `generate : context ↦ (answer, model_used, confidence)`.
The returned flag records whether the LLM was called. -/
def ragQuery (searchResults : List SearchResult) (maxContextLength : Nat)
    (generate : Text → Text × Text × ℚ) : RAGResponse × Bool :=
  if searchResults = [] then
    ({ answer := noResultsAnswer
       citations := []
       confidence := 0
       model_used := str "none"
       context_used := [] }, false)
  else
    let context := getContextWindow searchResults maxContextLength
    let gen := generate context
    ({ answer := gen.1
       citations := extractCitations searchResults
       confidence := gen.2.2
       model_used := gen.2.1
       context_used :=
         if context.length > 500 then context.take 500 ++ str "..." else context },
     true)

/-! ## Document comparison (`backend/services/document_comparison.py`,
`backend/repositories/document_comparison.py`)

Document ids are modelled as naturals.  The stored row keeps the
`ComparisonResult` payload directly (`_store_comparison_result` /
`_parse_stored_comparison` serialize it to JSON and back; that round trip is
modelled as the identity).  Fields of `ComparisonResult` not read by any
verified claim (`clause_changes`, `risk_assessment`, `summary`) are omitted. -/

/-- `ChangeType` enumeration. -/
inductive ChangeType where
  | added | removed | modified | unchanged
  deriving DecidableEq, Repr

/-- `TextChange` dataclass (fields read by the verified claims). -/
structure TextChange where
  change_type : ChangeType
  text : Text
  line_number : Option Nat
  deriving DecidableEq, Repr

/-- `ComparisonResult` dataclass (fields read by the verified claims). -/
structure ComparisonResult where
  document_a_id : Nat
  document_b_id : Nat
  text_changes : List TextChange
  similarity_score : ℚ
  deriving DecidableEq, Repr

/-- A row of the `document_comparisons` table. -/
structure StoredComparison where
  document_a_id : Nat
  document_b_id : Nat
  created_at : Nat
  payload : ComparisonResult
  deriving DecidableEq, Repr

/-- `DocumentComparisonService._calculate_similarity_score`. -/
def calculateSimilarityScore (text_changes : List TextChange) : ℚ :=
  if text_changes = [] then 1
  else
    let total := text_changes.length
    if total < 10 then 9/10
    else if total < 50 then 7/10
    else if total < 100 then 1/2
    else 3/10

/-- The filter of `DocumentComparisonRepository.get_by_documents`: a row
matches the pair `(A, B)` in either orientation. -/
def comparisonRowMatches (A B : Nat) (c : StoredComparison) : Bool :=
  (c.document_a_id = A ∧ c.document_b_id = B) ∨
    (c.document_a_id = B ∧ c.document_b_id = A)

/-- `DocumentComparisonRepository.get_by_documents`: filter the table by the
unordered pair, order by `created_at` descending, then
`scalar_one_or_none()` — which raises when more than one row matches. -/
def getByDocuments (A B : Nat) (store : List StoredComparison) :
    Except String (Option StoredComparison) :=
  let rows :=
    sortByKeyDescQ (fun c => ((c.created_at : ℚ)))
      (store.filter (comparisonRowMatches A B))
  match rows with
  | [] => .ok none
  | [c] => .ok (some c)
  | _ => .error "MultipleResultsFound"

/-- `DocumentComparisonService.compare_documents`: return the stored result
when the unordered-pair lookup finds one, otherwise compute a fresh result,
store it and return it.  The output carries the updated table and a flag
recording whether a fresh comparison was computed and stored. -/
def compareDocuments (A B : Nat) (store : List StoredComparison)
    (compute : Nat → Nat → ComparisonResult) (now : Nat) :
    Except String (ComparisonResult × List StoredComparison × Bool) :=
  match getByDocuments A B store with
  | .error e => .error e
  | .ok (some c) => .ok (c.payload, store, false)
  | .ok none =>
    let r := compute A B
    .ok (r, store ++ [{ document_a_id := A, document_b_id := B,
                        created_at := now, payload := r }], true)

/-! ## Concrete sample data used by the example scenarios -/

/-- The playbook rule of the spec's example scenario:
`{id:"indemnity_clause", patterns:["indemnify"], risk_weight:0.9}`, required. -/
def sampleRule : ComplianceRule :=
  { id := str "indemnity_clause"
    name := str "Indemnity Clause"
    description := []
    clause_type := str "indemnity"
    required := true
    patterns := [str "indemnify"]
    risk_weight := 9/10
    recommendations := [str "Add mutual indemnity clause"] }

/-- A rule whose single pattern `"("` does not compile under `re.compile`. -/
def sampleRuleBadPattern : ComplianceRule :=
  { sampleRule with id := str "bad_rule", patterns := [str "("] }

/-- A one-chunk document containing no occurrence of `"indemnify"`. -/
def chunksNoMatch : List DocumentChunk :=
  [{ text := str "no relevant text here", page := some 1, chunk_no := 0 }]

/-- A one-chunk document containing the exact phrase
`"shall indemnify and hold harmless"`. -/
def chunksWithPhrase : List DocumentChunk :=
  [{ text := str "The Supplier shall indemnify and hold harmless the Buyer.",
     page := some 1, chunk_no := 0 }]

/-- The upper-case case-variant document. -/
def chunksUpper : List DocumentChunk :=
  [{ text := str "INDEMNIFY", page := some 1, chunk_no := 0 }]

/-- The lower-case case-variant document. -/
def chunksLower : List DocumentChunk :=
  [{ text := str "indemnify", page := some 1, chunk_no := 0 }]

/-- A compliance result carrying a given risk score (the only field
`_calculate_overall_risk_score` reads). -/
def riskOnlyResult (q : ℚ) : ComplianceResult :=
  { rule_id := [], rule_name := [], status := .non_compliant,
    matched_clauses := [], missing_clause := true, risk_score := q,
    recommendations := [] }

/-! ## Helper lemmas -/

theorem flatMap_map_eq_nil {α β γ : Type} (l : List α) (f : α → List β) (g : β → γ)
    (h : ∀ a ∈ l, f a = []) : (l.flatMap fun a => (f a).map g) = [] := by
  rw [List.flatMap_eq_nil_iff]
  intro a ha
  rw [h a ha]
  rfl

/-- Every position produced by the scan is a match position. -/
theorem matchesAt_of_mem_scanAux {p t : Text} :
    ∀ {fuel i j}, j ∈ scanAux p t i fuel → matchesAt t p j = true := by
  intro fuel
  induction fuel with
  | zero => intro i j h; simp [scanAux] at h
  | succ n ih =>
    intro i j h
    unfold scanAux at h
    by_cases h1 : i + p.length ≤ t.length
    · rw [if_pos h1] at h
      cases h2 : matchesAt t p i with
      | true =>
        rw [h2, if_pos rfl] at h
        rcases List.mem_cons.mp h with rfl | h3
        · exact h2
        · exact ih h3
      | false =>
        rw [h2] at h
        simp only [Bool.false_eq_true, if_false] at h
        exact ih h
    · rw [if_neg h1] at h
      simp at h

/-- If some position at or after `i` matches, a sufficiently fuelled scan from
`i` finds at least one match. -/
theorem scanAux_ne_nil {p t : Text} :
    ∀ {fuel i}, (∃ j, i ≤ j ∧ j + p.length ≤ t.length ∧ matchesAt t p j = true) →
      t.length + 1 - i ≤ fuel → scanAux p t i fuel ≠ [] := by
  intro fuel
  induction fuel with
  | zero =>
    rintro i ⟨j, hij, hlen, _⟩ hfuel
    omega
  | succ n ih =>
    rintro i ⟨j, hij, hlen, hmatch⟩ hfuel
    unfold scanAux
    have h1 : i + p.length ≤ t.length := by omega
    rw [if_pos h1]
    cases h2 : matchesAt t p i with
    | true => simp
    | false =>
      simp only [Bool.false_eq_true, if_false]
      have hij' : i + 1 ≤ j := by
        rcases Nat.lt_or_ge i j with h | h
        · omega
        · exfalso
          have : i = j := by omega
          rw [this, hmatch] at h2
          exact absurd h2 (by simp)
      exact ih ⟨j, hij', hlen, hmatch⟩ (by omega)

theorem scanMatches_ne_nil {p t : Text}
    (h : ∃ j, j + p.length ≤ t.length ∧ matchesAt t p j = true) :
    scanMatches p t ≠ [] := by
  obtain ⟨j, hlen, hmatch⟩ := h
  exact scanAux_ne_nil ⟨j, Nat.zero_le j, hlen, hmatch⟩ (by omega)

/-- The exact-match confidence boost puts every exact match at `≥ 0.9`. -/
theorem calculateMatchConfidence_ge_of_exact {pattern context matched : Text}
    (h : (pattern.map Char.toLower == matched.map Char.toLower) = true) :
    9/10 ≤ calculateMatchConfidence pattern context matched := by
  unfold calculateMatchConfidence
  rw [h]
  simp only [if_true]
  have hboost : (0 : ℚ) ≤ min (1/10)
      (((legalKeywords.filter
          (fun k => isSubstrOf k (context.map Char.toLower))).length : ℚ) * (2/100)) := by
    apply le_min <;> positivity
  have h1 : (9/10 : ℚ) ≤ 7/10 + 2/10 + min (1/10)
      (((legalKeywords.filter
          (fun k => isSubstrOf k (context.map Char.toLower))).length : ℚ) * (2/100)) := by
    linarith
  exact le_min (by norm_num) h1

/-- Every match produced by `_find_pattern_matches` for a literal pattern is
an exact (case-insensitive) occurrence of the pattern and scores `≥ 0.9`. -/
theorem findPatternMatches_confidence_ge {pattern : Text}
    {chunks : List DocumentChunk} {m : PatternMatch}
    (hm : m ∈ findPatternMatches pattern chunks) : 9/10 ≤ m.confidence := by
  unfold findPatternMatches at hm
  rcases List.mem_flatMap.mp hm with ⟨chunk, _, hmem⟩
  rcases List.mem_map.mp hmem with ⟨i, hi, rfl⟩
  have hmatch : matchesAt chunk.text pattern i = true := matchesAt_of_mem_scanAux hi
  unfold matchesAt at hmatch
  have heq : ((chunk.text.drop i).take pattern.length).map Char.toLower
      = pattern.map Char.toLower := by
    exact beq_iff_eq.mp hmatch
  exact calculateMatchConfidence_ge_of_exact (beq_iff_eq.mpr heq.symm)

theorem ruleMatchedClauses_confidence_ge {rule : ComplianceRule}
    {chunks : List DocumentChunk} {m : ClauseMatch}
    (hm : m ∈ ruleMatchedClauses rule chunks) : 9/10 ≤ m.confidence := by
  unfold ruleMatchedClauses at hm
  rcases List.mem_flatMap.mp hm with ⟨pattern, _, hmem⟩
  rcases List.mem_map.mp hmem with ⟨pm, hpm, rfl⟩
  exact findPatternMatches_confidence_ge hpm

/-- Sum of a list bounded below by a uniform bound times the length. -/
theorem mul_length_le_sum {a : ℚ} :
    ∀ {l : List ℚ}, (∀ x ∈ l, a ≤ x) → a * l.length ≤ l.sum := by
  intro l
  induction l with
  | nil => intro _; simp
  | cons x xs ih =>
    intro h
    have hx := h x (List.mem_cons_self x xs)
    have hxs := ih fun y hy => h y (List.mem_cons_of_mem x hy)
    simp only [List.sum_cons, List.length_cons]
    push_cast
    linarith

theorem le_avg_of_forall_le {a : ℚ} {l : List ℚ} (hne : l ≠ [])
    (h : ∀ x ∈ l, a ≤ x) : a ≤ l.sum / l.length := by
  have hlen : (0 : ℚ) < l.length := by
    have := List.length_pos.mpr hne
    exact_mod_cast this
  rw [le_div_iff₀ hlen]
  exact mul_length_le_sum h

/-- Branch analysis of `_evaluate_rule`: a required rule with no matched
clauses takes the missing-clause branch. -/
theorem evaluateRule_of_no_match {rule : ComplianceRule}
    {chunks : List DocumentChunk} (hreq : rule.required = true)
    (hm : ruleMatchedClauses rule chunks = []) :
    (evaluateRule rule chunks).status = ComplianceStatus.non_compliant ∧
    (evaluateRule rule chunks).missing_clause = true ∧
    (evaluateRule rule chunks).risk_score = rule.risk_weight * 100 := by
  unfold evaluateRule
  rw [hm]
  simp [hreq]

/-- Branch analysis of `_evaluate_rule`: matches with average confidence
`≥ 0.8` take the compliant branch. -/
theorem evaluateRule_of_avg_ge {rule : ComplianceRule}
    {chunks : List DocumentChunk}
    (hne : ruleMatchedClauses rule chunks ≠ [])
    (havg : 8/10 ≤ ((ruleMatchedClauses rule chunks).map ClauseMatch.confidence).sum
      / ((ruleMatchedClauses rule chunks).length : ℚ)) :
    (evaluateRule rule chunks).status = ComplianceStatus.compliant ∧
    (evaluateRule rule chunks).missing_clause = false ∧
    (evaluateRule rule chunks).risk_score = 0 := by
  have h1 : ¬(rule.required = true ∧ ruleMatchedClauses rule chunks = []) :=
    fun h => hne h.2
  simp only [evaluateRule]
  rw [if_neg h1, if_pos hne, if_pos havg]
  exact ⟨rfl, rfl, rfl⟩

/-- The `missing_clause` field of `_evaluate_rule` is exactly "required rule
with an empty match list", whatever the confidence branch taken. -/
theorem evaluateRule_missing_clause (rule : ComplianceRule)
    (chunks : List DocumentChunk) :
    (evaluateRule rule chunks).missing_clause
      = (rule.required && (ruleMatchedClauses rule chunks).isEmpty) := by
  simp only [evaluateRule]
  by_cases h1 : rule.required = true ∧ ruleMatchedClauses rule chunks = []
  · rw [if_pos h1]
    simp [h1.1, h1.2]
  · rw [if_neg h1]
    by_cases h2 : ruleMatchedClauses rule chunks ≠ []
    · rw [if_pos h2]
      by_cases h3 : (8:ℚ)/10 ≤ ((ruleMatchedClauses rule chunks).map ClauseMatch.confidence).sum
          / ((ruleMatchedClauses rule chunks).length : ℚ)
      · rw [if_pos h3]
        simp [List.isEmpty_iff, h2]
      · rw [if_neg h3]
        by_cases h4 : (1:ℚ)/2 ≤ ((ruleMatchedClauses rule chunks).map ClauseMatch.confidence).sum
            / ((ruleMatchedClauses rule chunks).length : ℚ)
        · rw [if_pos h4]
          simp [List.isEmpty_iff, h2]
        · rw [if_neg h4]
          simp [List.isEmpty_iff, h2]
    · rw [if_neg h2]
      push_neg at h2
      have hreq : rule.required = false := by
        cases hr : rule.required
        · rfl
        · exact absurd ⟨hr, h2⟩ h1
      simp [hreq]

/-! ## C1 -/

/-- C1: for every compliance rule with `required = true` and every document in
which none of the rule's patterns produces a match, `_evaluate_rule` returns a
`ComplianceResult` with status `NON_COMPLIANT`, `missing_clause = True` and
`risk_score = risk_weight * 100`. -/
theorem required_rule_unmatched_is_non_compliant
    (rule : ComplianceRule) (chunks : List DocumentChunk)
    (hreq : rule.required = true)
    (hnone : ∀ p ∈ rule.patterns, findPatternMatches p chunks = []) :
    (evaluateRule rule chunks).status = ComplianceStatus.non_compliant ∧
    (evaluateRule rule chunks).missing_clause = true ∧
    (evaluateRule rule chunks).risk_score = rule.risk_weight * 100 := by
  have hm : ruleMatchedClauses rule chunks = [] := by
    unfold ruleMatchedClauses
    exact flatMap_map_eq_nil _ _ _ hnone
  exact evaluateRule_of_no_match hreq hm

/-- C1 witness: the spec's example rule run against a document with no
occurrence of `"indemnify"`. -/
theorem required_rule_unmatched_is_non_compliant_witness :
    (evaluateRule sampleRule chunksNoMatch).status = ComplianceStatus.non_compliant ∧
    (evaluateRule sampleRule chunksNoMatch).missing_clause = true ∧
    (evaluateRule sampleRule chunksNoMatch).risk_score = sampleRule.risk_weight * 100 :=
  required_rule_unmatched_is_non_compliant sampleRule chunksNoMatch (by decide)
    (by decide)

/-- Evaluate an integer floor from explicit bounds. -/
theorem floor_eq_int_of_bounds (z : ℤ) (q : ℚ) (h1 : (z : ℚ) ≤ q)
    (h2 : q < z + 1) : ⌊q⌋ = z := by
  rw [Int.floor_eq_iff]
  exact ⟨h1, h2⟩

/-! ## C2 -/

/-- C2 counterexample: on two rules with risk scores 50 and 45 the code
computes `int(95/200*100) = 47`, while the claimed `round` formula gives 48;
and the risk category string for a score of 90 is capitalized `"Critical"`,
not `"critical"`. -/
theorem overallRiskScore_not_round_counterexample :
    calculateOverallRiskScore [riskOnlyResult 50, riskOnlyResult 45] = 47 ∧
    round ((100 : ℚ) *
        (([riskOnlyResult 50, riskOnlyResult 45].map ComplianceResult.risk_score).sum)
        / (100 * ([riskOnlyResult 50, riskOnlyResult 45].length : ℚ))) = 48 ∧
    getRiskCategory 90 ≠ str "critical" := by
  refine ⟨?_, ?_, by decide⟩
  · simp only [calculateOverallRiskScore, riskOnlyResult, List.sum_cons, List.sum_nil,
      List.map_cons, List.map_nil, List.length_cons, List.length_nil]
    rw [if_neg (by simp), if_pos (by norm_num)]
    unfold pyInt
    rw [if_pos (by norm_num)]
    have h : ((50:ℚ) + (45 + 0)) / ((0 + 1 + 1 : ℕ) * 100) * 100 = 95/2 := by
      push_cast; ring
    rw [h, floor_eq_int_of_bounds 47 _ (by norm_num) (by norm_num)]
    decide
  · have hsum : ([riskOnlyResult 50, riskOnlyResult 45].map
        ComplianceResult.risk_score).sum = (95 : ℚ) := by
      simp [riskOnlyResult]
      norm_num
    rw [hsum]
    have h1 : (100 : ℚ) * 95 / (100 * ([riskOnlyResult 50, riskOnlyResult 45].length : ℚ))
        = 95/2 := by norm_num
    rw [h1, round_eq]
    have h2 : (95 : ℚ)/2 + 1/2 = ((48 : ℤ) : ℚ) := by norm_num
    rw [h2, Int.floor_intCast]

/-- C2 (amended): for every non-empty result list with non-negative per-rule
risk scores, the aggregated `overall_risk_score` is the *truncated* mean
`int(100·Σrisk/(100·n)) = ⌊Σrisk/n⌋` clamped above at 100 (Python `int`
truncation, not `round`), and lies in `[0, 100]`; for the single-rule example
playbook with the required rule missing at `risk_weight = 0.9` the score is
90 and the category string is `"Critical"`. -/
theorem overallRiskScore_truncated_mean (results : List ComplianceResult)
    (hne : results ≠ [])
    (hnn : ∀ r ∈ results, 0 ≤ r.risk_score) :
    calculateOverallRiskScore results
      = min 100 ⌊((results.map ComplianceResult.risk_score).sum) / (results.length : ℚ)⌋ ∧
    0 ≤ calculateOverallRiskScore results ∧
    calculateOverallRiskScore results ≤ 100 ∧
    calculateOverallRiskScore [evaluateRule sampleRule chunksNoMatch] = 90 ∧
    getRiskCategory (calculateOverallRiskScore [evaluateRule sampleRule chunksNoMatch])
      = str "Critical" := by
  have hlen : (0 : ℚ) < (results.length : ℚ) := by
    exact_mod_cast List.length_pos.mpr hne
  have hsum : 0 ≤ (results.map ComplianceResult.risk_score).sum := by
    apply List.sum_nonneg
    intro x hx
    rcases List.mem_map.mp hx with ⟨r, hr, rfl⟩
    exact hnn r hr
  have hmain : calculateOverallRiskScore results
      = min 100 ⌊((results.map ComplianceResult.risk_score).sum) / (results.length : ℚ)⌋ := by
    simp only [calculateOverallRiskScore]
    rw [if_neg hne]
    have hmp : (0 : ℚ) < (results.length : ℚ) * 100 := by positivity
    rw [if_pos hmp]
    have hq : 0 ≤ (results.map ComplianceResult.risk_score).sum
        / ((results.length : ℚ) * 100) * 100 :=
      mul_nonneg (div_nonneg hsum (le_of_lt hmp)) (by norm_num)
    unfold pyInt
    rw [if_pos hq]
    congr 1
    congr 1
    field_simp
    ring
  have hex : calculateOverallRiskScore [evaluateRule sampleRule chunksNoMatch] = 90 := by
    have hm : ruleMatchedClauses sampleRule chunksNoMatch = [] := by decide
    have h := @evaluateRule_of_no_match sampleRule chunksNoMatch rfl hm
    simp only [calculateOverallRiskScore, List.map_cons, List.map_nil, List.sum_cons,
      List.sum_nil, List.length_cons, List.length_nil]
    rw [if_neg (by simp), if_pos (by norm_num)]
    rw [h.2.2]
    unfold pyInt
    rw [if_pos (by norm_num [sampleRule])]
    have h2 : ((sampleRule.risk_weight * 100 + 0)) / ((0+1 : ℕ) * 100) * 100 = 90 := by
      norm_num [sampleRule]
    rw [h2, floor_eq_int_of_bounds 90 _ (by norm_num) (by norm_num)]
    decide
  refine ⟨hmain, ?_, ?_, hex, by rw [hex]; decide⟩
  · rw [hmain]
    exact le_min (by norm_num)
      (Int.floor_nonneg.mpr (div_nonneg hsum (le_of_lt hlen)))
  · rw [hmain]
    exact min_le_left _ _

/-- C2 witness: the amended aggregation theorem applied to the two-rule
result list of the counterexample. -/
theorem overallRiskScore_truncated_mean_witness :
    calculateOverallRiskScore [riskOnlyResult 50, riskOnlyResult 45]
      = min 100 ⌊(([riskOnlyResult 50, riskOnlyResult 45].map
          ComplianceResult.risk_score).sum)
          / (([riskOnlyResult 50, riskOnlyResult 45].length : ℕ) : ℚ)⌋ ∧
    0 ≤ calculateOverallRiskScore [riskOnlyResult 50, riskOnlyResult 45] ∧
    calculateOverallRiskScore [riskOnlyResult 50, riskOnlyResult 45] ≤ 100 ∧
    calculateOverallRiskScore [evaluateRule sampleRule chunksNoMatch] = 90 ∧
    getRiskCategory (calculateOverallRiskScore [evaluateRule sampleRule chunksNoMatch])
      = str "Critical" :=
  overallRiskScore_truncated_mean [riskOnlyResult 50, riskOnlyResult 45]
    (by simp) (by simp [List.forall_mem_cons, riskOnlyResult])

/-! ## C7 -/

/-- C7: for a rule whose pattern list is `["indemnify"]`, evaluated against a
document containing the exact phrase `"shall indemnify and hold harmless"`,
every resulting pattern match has confidence `≥ 0.9` (exact-match boost on
top of the 0.7 base), and consequently the rule is `COMPLIANT` with
`risk_score = 0` because the average match confidence is at least 0.8. -/
theorem indemnify_phrase_rule_compliant
    (rule : ComplianceRule) (chunks : List DocumentChunk)
    (hpat : rule.patterns = [str "indemnify"])
    (hphrase : ∃ c ∈ chunks,
      isSubstrOf (str "shall indemnify and hold harmless") c.text = true) :
    (∀ m ∈ (evaluateRule rule chunks).matched_clauses, 9/10 ≤ m.confidence) ∧
    (evaluateRule rule chunks).status = ComplianceStatus.compliant ∧
    (evaluateRule rule chunks).risk_score = 0 := by
  obtain ⟨c, hc, hsub⟩ := hphrase
  -- a concrete occurrence of the whole phrase in the chunk text
  have hsub' : ∃ i, (c.text.drop i).take 33
      = str "shall indemnify and hold harmless" := by
    unfold isSubstrOf at hsub
    rw [List.any_eq_true] at hsub
    obtain ⟨i, _, hbeq⟩ := hsub
    exact ⟨i, beq_iff_eq.mp hbeq⟩
  obtain ⟨i, hi⟩ := hsub'
  -- the phrase occupies positions i .. i+32, so the text is long enough
  have hlen : i + 33 ≤ c.text.length := by
    have hL := congrArg List.length hi
    rw [List.length_take, List.length_drop] at hL
    have h33 : (str "shall indemnify and hold harmless").length = 33 := rfl
    rw [h33] at hL
    omega
  -- the pattern "indemnify" occurs at offset 6 inside the phrase
  have h9 : (c.text.drop (i + 6)).take 9 = str "indemnify" := by
    calc (c.text.drop (i + 6)).take 9
        = ((c.text.drop i).drop 6).take 9 := by rw [List.drop_drop]
      _ = ((c.text.drop i).take (6 + 9)).drop 6 := List.take_drop 6 9 _
      _ = (((c.text.drop i).take 33).take 15).drop 6 := by
            rw [List.take_take]
            norm_num
      _ = ((str "shall indemnify and hold harmless").take 15).drop 6 := by
            rw [hi]
      _ = str "indemnify" := by decide
  have hmatch : matchesAt c.text (str "indemnify") (i + 6) = true := by
    unfold matchesAt
    have hlen9 : (str "indemnify").length = 9 := rfl
    rw [hlen9, h9]
    decide
  have hscan : scanMatches (str "indemnify") c.text ≠ [] := by
    apply scanMatches_ne_nil
    refine ⟨i + 6, ?_, hmatch⟩
    have hlen9 : (str "indemnify").length = 9 := rfl
    rw [hlen9]
    omega
  have hfpm : findPatternMatches (str "indemnify") chunks ≠ [] := by
    unfold findPatternMatches
    intro hnil
    rw [List.flatMap_eq_nil_iff] at hnil
    have h' := hnil c hc
    rw [List.map_eq_nil_iff] at h'
    exact hscan h'
  have hmcne : ruleMatchedClauses rule chunks ≠ [] := by
    unfold ruleMatchedClauses
    rw [hpat]
    intro hnil
    rw [List.flatMap_eq_nil_iff] at hnil
    have h' := hnil (str "indemnify") (List.mem_singleton.mpr rfl)
    rw [List.map_eq_nil_iff] at h'
    exact hfpm h'
  have hconf : ∀ m ∈ ruleMatchedClauses rule chunks, 9/10 ≤ m.confidence :=
    fun _ hm => ruleMatchedClauses_confidence_ge hm
  have havg : 8/10 ≤ ((ruleMatchedClauses rule chunks).map ClauseMatch.confidence).sum
      / ((ruleMatchedClauses rule chunks).length : ℚ) := by
    have h9' : (9:ℚ)/10
        ≤ ((ruleMatchedClauses rule chunks).map ClauseMatch.confidence).sum
          / (((ruleMatchedClauses rule chunks).map ClauseMatch.confidence).length : ℚ) := by
      apply le_avg_of_forall_le
      · rw [Ne, List.map_eq_nil_iff]
        exact hmcne
      · intro x hx
        rcases List.mem_map.mp hx with ⟨m, hm, rfl⟩
        exact hconf m hm
    rw [List.length_map] at h9'
    linarith
  obtain ⟨hs, _, hr⟩ := evaluateRule_of_avg_ge hmcne havg
  refine ⟨?_, hs, hr⟩
  intro m hm'
  have hproj : (evaluateRule rule chunks).matched_clauses
      = ruleMatchedClauses rule chunks := rfl
  rw [hproj] at hm'
  exact hconf m hm'

/-- C7 witness: the example rule run against a chunk containing
`"shall indemnify and hold harmless"` verbatim. -/
theorem indemnify_phrase_rule_compliant_witness :
    (∀ m ∈ (evaluateRule sampleRule chunksWithPhrase).matched_clauses,
      9/10 ≤ m.confidence) ∧
    (evaluateRule sampleRule chunksWithPhrase).status = ComplianceStatus.compliant ∧
    (evaluateRule sampleRule chunksWithPhrase).risk_score = 0 :=
  indemnify_phrase_rule_compliant sampleRule chunksWithPhrase rfl (by decide)

/-! ## C10 -/

/-- Matching is determined by the lowercased text. -/
theorem matchesAt_congr {t₁ t₂ : Text}
    (h : t₁.map Char.toLower = t₂.map Char.toLower) (p : Text) (i : Nat) :
    matchesAt t₁ p i = matchesAt t₂ p i := by
  unfold matchesAt
  rw [List.map_take, List.map_drop, h, ← List.map_drop, ← List.map_take]

theorem length_eq_of_map_toLower_eq {t₁ t₂ : Text}
    (h : t₁.map Char.toLower = t₂.map Char.toLower) : t₁.length = t₂.length := by
  rw [← List.length_map t₁ Char.toLower, h, List.length_map]

theorem scanAux_congr {t₁ t₂ : Text}
    (h : t₁.map Char.toLower = t₂.map Char.toLower) (p : Text) :
    ∀ (fuel i : Nat), scanAux p t₁ i fuel = scanAux p t₂ i fuel := by
  have hlen := length_eq_of_map_toLower_eq h
  intro fuel
  induction fuel with
  | zero => intro i; rfl
  | succ n ih =>
    intro i
    unfold scanAux
    rw [hlen, matchesAt_congr h p i, ih (i + max p.length 1), ih (i + 1)]

theorem scanMatches_congr {t₁ t₂ : Text}
    (h : t₁.map Char.toLower = t₂.map Char.toLower) (p : Text) :
    scanMatches p t₁ = scanMatches p t₂ := by
  unfold scanMatches
  rw [length_eq_of_map_toLower_eq h]
  exact scanAux_congr h p _ 0

/-- Case variants of a chunk list: equal lowercased texts, position by
position. -/
def CaseVariants (l₁ l₂ : List DocumentChunk) : Prop :=
  l₁.map (fun c => c.text.map Char.toLower) = l₂.map (fun c => c.text.map Char.toLower)

theorem caseVariants_scanMatches {l₁ l₂ : List DocumentChunk}
    (h : CaseVariants l₁ l₂) (p : Text) :
    l₁.map (fun c => scanMatches p c.text) = l₂.map (fun c => scanMatches p c.text) := by
  induction l₁ generalizing l₂ with
  | nil => cases l₂ with
    | nil => rfl
    | cons c₂ t₂ => exact absurd h (by simp [CaseVariants])
  | cons c₁ t₁ ih =>
    cases l₂ with
    | nil => exact absurd h (by simp [CaseVariants])
    | cons c₂ t₂ =>
      simp only [CaseVariants, List.map_cons, List.cons.injEq] at h
      simp only [List.map_cons, List.cons.injEq]
      exact ⟨scanMatches_congr h.1 p, ih h.2⟩

theorem caseVariants_findPatternMatches_length {l₁ l₂ : List DocumentChunk}
    (h : CaseVariants l₁ l₂) (p : Text) :
    (findPatternMatches p l₁).length = (findPatternMatches p l₂).length := by
  unfold findPatternMatches
  induction l₁ generalizing l₂ with
  | nil => cases l₂ with
    | nil => rfl
    | cons c₂ t₂ => exact absurd h (by simp [CaseVariants])
  | cons c₁ t₁ ih =>
    cases l₂ with
    | nil => exact absurd h (by simp [CaseVariants])
    | cons c₂ t₂ =>
      simp only [CaseVariants, List.map_cons, List.cons.injEq] at h
      simp only [List.flatMap_cons, List.length_append, List.length_map]
      rw [scanMatches_congr h.1 p, ih h.2]

theorem caseVariants_ruleMatchedClauses_length {l₁ l₂ : List DocumentChunk}
    (h : CaseVariants l₁ l₂) (rule : ComplianceRule) :
    (ruleMatchedClauses rule l₁).length = (ruleMatchedClauses rule l₂).length := by
  unfold ruleMatchedClauses
  induction rule.patterns with
  | nil => rfl
  | cons p ps ih =>
    simp only [List.flatMap_cons, List.length_append, List.length_map]
    rw [caseVariants_findPatternMatches_length h p, ih]

/-- C10: pattern matching during rule evaluation is case-insensitive — two
documents with the same lowercased chunk texts produce identical match
positions for every pattern, and a required clause is reported missing on one
exactly when it is reported missing on the other; casing alone never turns
`missing_clause` on. -/
theorem pattern_matching_case_insensitive
    (p : Text) (rule : ComplianceRule) (chunks₁ chunks₂ : List DocumentChunk)
    (hcase : CaseVariants chunks₁ chunks₂) :
    chunks₁.map (fun c => scanMatches p c.text)
      = chunks₂.map (fun c => scanMatches p c.text) ∧
    (evaluateRule rule chunks₁).missing_clause
      = (evaluateRule rule chunks₂).missing_clause := by
  refine ⟨caseVariants_scanMatches hcase p, ?_⟩
  rw [evaluateRule_missing_clause, evaluateRule_missing_clause]
  have hlen := caseVariants_ruleMatchedClauses_length hcase rule
  have hie : (ruleMatchedClauses rule chunks₁).isEmpty
      = (ruleMatchedClauses rule chunks₂).isEmpty := by
    cases h₁ : ruleMatchedClauses rule chunks₁ <;>
      cases h₂ : ruleMatchedClauses rule chunks₂ <;>
      simp_all
  rw [hie]

/-- C10 witness: `"indemnify"` matches the all-caps document `"INDEMNIFY"`
exactly as it matches the lower-case one, and the required indemnity rule is
not reported missing on either. -/
theorem pattern_matching_case_insensitive_witness :
    chunksUpper.map (fun c => scanMatches (str "indemnify") c.text)
      = chunksLower.map (fun c => scanMatches (str "indemnify") c.text) ∧
    (evaluateRule sampleRule chunksUpper).missing_clause
      = (evaluateRule sampleRule chunksLower).missing_clause :=
  pattern_matching_case_insensitive (str "indemnify") sampleRule
    chunksUpper chunksLower (by unfold CaseVariants; decide)

/-! ## C6 -/

/-- C6: the rule loop of `analyze_document` has no per-rule exception
handler, so as soon as one rule's evaluation raises (here: an uncompilable
pattern), the whole analysis aborts with that error and produces no result
list at all — in particular no `REVIEW_REQUIRED` report for the failing
rule. -/
theorem analyzeRulesE_aborts_on_rule_error
    (rules : List ComplianceRule) (chunks : List DocumentChunk)
    (h : ∃ r ∈ rules, r.patterns.all regexCompiles = false) :
    ∃ e, analyzeRulesE rules chunks = .error e := by
  unfold analyzeRulesE
  induction rules with
  | nil => simp at h
  | cons r rs ih =>
    rw [List.mapM_cons]
    cases hfa : evaluateRuleE r chunks with
    | error e => exact ⟨e, rfl⟩
    | ok v =>
      have hr : r.patterns.all regexCompiles = true := by
        by_contra hfalse
        have : evaluateRuleE r chunks
            = .error "re.error: missing ), unterminated subpattern" := by
          unfold evaluateRuleE
          rw [if_neg hfalse]
        rw [this] at hfa
        cases hfa
      have h' : ∃ r' ∈ rs, r'.patterns.all regexCompiles = false := by
        rcases h with ⟨r', hr', hfail⟩
        rcases List.mem_cons.mp hr' with rfl | hmem
        · rw [hr] at hfail; cases hfail
        · exact ⟨r', hmem, hfail⟩
      rcases ih h' with ⟨e, he⟩
      exact ⟨e, by rw [he]; rfl⟩

/-- C6 witness: a playbook whose second rule has the uncompilable pattern
`"("` aborts the whole evaluation with a `re.error`. -/
theorem analyzeRulesE_aborts_on_rule_error_witness :
    ∃ e, analyzeRulesE [sampleRule, sampleRuleBadPattern] chunksNoMatch = .error e :=
  analyzeRulesE_aborts_on_rule_error _ _
    ⟨sampleRuleBadPattern,
     List.mem_cons_of_mem _ (List.mem_cons_self _ _), by decide⟩

/-! ## C4 -/

/-- C4: a RAG query whose semantic search yields no results returns the fixed
informative no-results answer with `confidence = 0.0` and an empty citation
list, and the LLM oracle is never invoked (the call flag is `false`),
whatever the generation oracle and context budget are. -/
theorem ragQuery_no_results (maxLen : Nat) (generate : Text → Text × Text × ℚ) :
    ragQuery [] maxLen generate
      = ({ answer := noResultsAnswer
           citations := []
           confidence := 0
           model_used := str "none"
           context_used := [] }, false) := rfl

/-! ## C5 -/

/-- Modelled from the amended claim: the longest prefix of sections whose
cumulative length stays within the limit. -/
def greedyFit (maxLen : Nat) : List Text → Nat → List Text
  | [], _ => []
  | s :: rest, cur =>
    if cur + s.length > maxLen then []
    else s :: greedyFit maxLen rest (cur + s.length)

/-- Modelled from the amended claim: context assembly keeps the greedy prefix
of sections that fits, and only when the very first section alone exceeds the
limit emits that one section truncated with the `"[... truncated ...]"`
marker. -/
def specAssembleContext (sections : List Text) (maxLen : Nat) : Text :=
  match sections with
  | [] => []
  | s :: _ =>
    if s.length > maxLen then truncatedSection s maxLen
    else List.intercalate (str "\n") (greedyFit maxLen sections 0)

theorem length_le_foldl_section :
    ∀ (l : List DocumentChunk) (acc : Text),
      acc.length ≤ (l.foldl
        (fun a c => a ++ pyStrip c.text ++ pageInfo c.page ++ str "\n") acc).length := by
  intro l
  induction l with
  | nil => intro acc; exact le_refl _
  | cons c cs ih =>
    intro acc
    calc acc.length
        ≤ (acc ++ pyStrip c.text ++ pageInfo c.page ++ str "\n").length := by
          rw [List.length_append, List.length_append, List.length_append]; omega
      _ ≤ _ := ih _

/-- Every per-result section starts with a non-empty header, so it has
positive length. -/
theorem sectionTextOf_length_pos (r : SearchResult) :
    0 < (sectionTextOf r).length := by
  unfold sectionTextOf
  refine lt_of_lt_of_le ?_ (length_le_foldl_section _ _)
  rw [List.length_append, List.length_append]
  have h11 : (str "\n--- From: ").length = 11 := rfl
  omega

theorem contextLoop_eq_greedyFit (maxLen : Nat) :
    ∀ (sections : List Text) (cur : Nat), cur ≠ 0 →
      contextLoop maxLen sections cur = greedyFit maxLen sections cur := by
  intro sections
  induction sections with
  | nil => intro cur _; rfl
  | cons s rest ih =>
    intro cur hcur
    unfold contextLoop greedyFit
    by_cases hov : cur + s.length > maxLen
    · rw [if_pos hov, if_pos hov, if_neg hcur]
    · rw [if_neg hov, if_neg hov, ih (cur + s.length) (by omega)]

/-- C5 (amended): `get_context_window` concatenates the per-result sections
in relevance order and keeps exactly the greedy prefix that fits within
`max_context_length`; a section that would overflow is *omitted* together
with everything after it — except when it is the very first section, which is
instead truncated with the `"[... truncated ...]"` marker. -/
theorem getContextWindow_greedy_prefix (results : List SearchResult) (maxLen : Nat) :
    getContextWindow results maxLen
      = specAssembleContext (results.map sectionTextOf) maxLen := by
  unfold getContextWindow specAssembleContext
  cases results with
  | nil => rfl
  | cons r rs =>
    simp only [List.map_cons]
    unfold contextLoop
    by_cases hov : 0 + (sectionTextOf r).length > maxLen
    · rw [if_pos hov, if_pos rfl, if_pos (by omega : (sectionTextOf r).length > maxLen)]
      simp [List.intercalate]
    · rw [if_neg hov, if_neg (by omega : ¬(sectionTextOf r).length > maxLen)]
      unfold greedyFit
      rw [if_neg hov]
      have hpos := sectionTextOf_length_pos r
      rw [contextLoop_eq_greedyFit maxLen (rs.map sectionTextOf)
        (0 + (sectionTextOf r).length) (by omega)]

/-- Search result whose section fits the 40-character budget of the
counterexample. -/
def sampleResultA : SearchResult :=
  { chunk := { text := str "alpha", page := none, chunk_no := 0 }
    similarity_score := 9/10
    document := some { id := 1, title := str "Doc A" }
    context_chunks := none }

/-- Second search result; its section overflows the 40-character budget. -/
def sampleResultB : SearchResult :=
  { chunk := { text := str "beta", page := none, chunk_no := 0 }
    similarity_score := 8/10
    document := some { id := 2, title := str "Doc B" }
    context_chunks := none }

/-- C5 counterexample: with a 40-character budget, the first section (27
characters) fits and the second (26 characters) would overflow; the code
*drops* the second section entirely — the output contains neither its text
nor any truncation marker, contradicting the claim that the overflowing last
section is truncated and kept. -/
theorem contextWindow_omits_overflow_counterexample :
    getContextWindow [sampleResultA, sampleResultB] 40
      = str "\n--- From: Doc A ---\nalpha\n" ∧
    isSubstrOf (str "truncated")
      (getContextWindow [sampleResultA, sampleResultB] 40) = false ∧
    isSubstrOf (str "beta")
      (getContextWindow [sampleResultA, sampleResultB] 40) = false := by
  decide

/-! ## C3 -/

theorem le_foldl_max (f : Nat → ℚ) :
    ∀ (js : List Nat) (a : ℚ), a ≤ js.foldl (fun acc j => max acc (f j)) a := by
  intro js
  induction js with
  | nil => intro a; exact le_refl a
  | cons j js ih =>
    intro a
    exact le_trans (le_max_left a (f j)) (ih (max a (f j)))

theorem mem_le_foldl_max (f : Nat → ℚ) :
    ∀ (js : List Nat) (a : ℚ) (j : Nat), j ∈ js →
      f j ≤ js.foldl (fun acc j' => max acc (f j')) a := by
  intro js
  induction js with
  | nil => intro a j hj; cases hj
  | cons j0 js ih =>
    intro a j hj
    rcases List.mem_cons.mp hj with rfl | hmem
    · exact le_trans (le_max_right a (f j)) (le_foldl_max f js _)
    · exact ih _ j hmem

theorem foldl_max_le (f : Nat → ℚ) :
    ∀ (js : List Nat) (a b : ℚ), a ≤ b → (∀ j ∈ js, f j ≤ b) →
      js.foldl (fun acc j => max acc (f j)) a ≤ b := by
  intro js
  induction js with
  | nil => intro a b hab _; exact hab
  | cons j js ih =>
    intro a b hab h
    exact ih _ b (max_le hab (h j (List.mem_cons_self j js)))
      (fun j' hj' => h j' (List.mem_cons_of_mem j hj'))

theorem le_maxSimToSelected (sim : Nat → Nat → ℚ) (i : Nat) {j : Nat}
    {sel : List Nat} (hj : j ∈ sel) : sim i j ≤ maxSimToSelected sim i sel := by
  cases sel with
  | nil => cases hj
  | cons j0 js =>
    unfold maxSimToSelected
    rcases List.mem_cons.mp hj with rfl | hmem
    · exact le_foldl_max _ js (sim i j)
    · exact mem_le_foldl_max _ js (sim i j0) j hmem

theorem maxSimToSelected_le (sim : Nat → Nat → ℚ) (i : Nat) {sel : List Nat}
    {b : ℚ} (hne : sel ≠ []) (h : ∀ j ∈ sel, sim i j ≤ b) :
    maxSimToSelected sim i sel ≤ b := by
  cases sel with
  | nil => exact absurd rfl hne
  | cons j0 js =>
    unfold maxSimToSelected
    exact foldl_max_le _ js _ b (h j0 (List.mem_cons_self j0 js))
      (fun j hj => h j (List.mem_cons_of_mem j0 hj))

/-- Python `max(..., key=f)` with a strictly greatest element returns it. -/
theorem foldl_pick_eq {f : Nat → ℚ} {x : Nat} :
    ∀ (zs : List Nat) (b : Nat), (∀ y ∈ zs, y ≠ x → f y < f x) →
      (b = x ∨ (f b < f x ∧ x ∈ zs)) →
      zs.foldl (fun acc i => if f acc < f i then i else acc) b = x := by
  intro zs
  induction zs with
  | nil =>
    intro b _ hb
    rcases hb with rfl | ⟨_, hx⟩
    · rfl
    · cases hx
  | cons z zs ih =>
    intro b hall hb
    simp only [List.foldl_cons]
    have hallzs : ∀ y ∈ zs, y ≠ x → f y < f x :=
      fun y hy hyx => hall y (List.mem_cons_of_mem _ hy) hyx
    rcases hb with hbx | ⟨hfb, hx⟩
    · by_cases hz : z = x
      · have hacc : (if f b < f z then z else b) = x := by
          by_cases hc : f b < f z
          · rw [if_pos hc]; exact hz
          · rw [if_neg hc]; exact hbx
        rw [hacc]
        exact ih x hallzs (Or.inl rfl)
      · have hz' : f z < f x := hall z (List.mem_cons_self z zs) hz
        have hnc : ¬ f b < f z := by
          rw [hbx]
          exact not_lt.mpr (le_of_lt hz')
        rw [if_neg hnc, hbx]
        exact ih x hallzs (Or.inl rfl)
    · by_cases hz : z = x
      · have hc : f b < f z := by rw [hz]; exact hfb
        rw [if_pos hc, hz]
        exact ih x hallzs (Or.inl rfl)
      · have hxzs : x ∈ zs := by
          rcases List.mem_cons.mp hx with h | h
          · exact absurd h.symm hz
          · exact h
        have hz' : f z < f x := hall z (List.mem_cons_self z zs) hz
        by_cases hc : f b < f z
        · rw [if_pos hc]
          exact ih z hallzs (Or.inr ⟨hz', hxzs⟩)
        · rw [if_neg hc]
          exact ih b hallzs (Or.inr ⟨hfb, hxzs⟩)

theorem argmaxFirst_eq_of_strict {f : Nat → ℚ} {x : Nat} {l : List Nat}
    (hx : x ∈ l) (h : ∀ y ∈ l, y ≠ x → f y < f x) :
    argmaxFirst f l = some x := by
  cases l with
  | nil => cases hx
  | cons z zs =>
    show some (zs.foldl (fun acc i => if f acc < f i then i else acc) z) = some x
    apply congrArg some
    rcases List.mem_cons.mp hx with rfl | hmem
    · exact foldl_pick_eq zs x
        (fun y hy hyx => h y (List.mem_cons_of_mem _ hy) hyx) (Or.inl rfl)
    · by_cases hz : z = x
      · subst hz
        exact foldl_pick_eq zs z
          (fun y hy hyx => h y (List.mem_cons_of_mem _ hy) hyx) (Or.inl rfl)
      · exact foldl_pick_eq zs z
          (fun y hy hyx => h y (List.mem_cons_of_mem _ hy) hyx)
          (Or.inr ⟨h z (List.mem_cons_self z zs) hz, hmem⟩)

/-- C3 (amended): in the MMR loop with `λ = 0.7`, once at least one
near-duplicate has been selected (and every selected candidate is a
near-duplicate), the distinct chunk is chosen ahead of every remaining
near-duplicate, *provided* the distinct chunk's relevance is at least that of
each remaining near-duplicate and its similarity to every near-duplicate is
at most 0.95; without the relevance proviso a more relevant near-duplicate
can beat it (see the counterexample). -/
theorem mmr_distinct_before_second_duplicate
    (rel : Nat → ℚ) (sim : Nat → Nat → ℚ) (dup : Nat → Prop) (x : Nat)
    (selected remaining : List Nat)
    (hdup : ∀ d d', dup d → dup d' → d ≠ d' → 95/100 < sim d d')
    (hxsim : ∀ d, dup d → sim x d ≤ 95/100)
    (hsel_ne : selected ≠ [])
    (hsel : ∀ j ∈ selected, dup j)
    (hx : x ∈ remaining)
    (hrem : ∀ j ∈ remaining, j ≠ x → dup j ∧ j ∉ selected ∧ rel j ≤ rel x) :
    argmaxFirst (mmrScore rel sim (7/10) selected) remaining = some x := by
  apply argmaxFirst_eq_of_strict hx
  intro y hy hyx
  obtain ⟨hdy, hys, hrely⟩ := hrem y hy hyx
  have hMx : maxSimToSelected sim x selected ≤ 95/100 :=
    maxSimToSelected_le sim x hsel_ne (fun j hj => hxsim j (hsel j hj))
  obtain ⟨j0, hj0⟩ := List.exists_mem_of_ne_nil selected hsel_ne
  have hyj0 : y ≠ j0 := fun hEq => hys (hEq ▸ hj0)
  have hsimy : 95/100 < sim y j0 := hdup y j0 hdy (hsel j0 hj0) hyj0
  have hMy : 95/100 < maxSimToSelected sim y selected :=
    lt_of_lt_of_le hsimy (le_maxSimToSelected sim y hj0)
  unfold mmrScore
  have h310 : (1 : ℚ) - 7/10 = 3/10 := by norm_num
  rw [h310]
  linarith

/-- Candidate-pool similarity table of the MMR scenarios: candidates 0 and 1
are near-duplicates (cosine similarity 0.96), candidate 2 is distinct
(similarity 0 to both). -/
def simPool : Nat → Nat → ℚ
  | 0, 1 => 96/100
  | 1, 0 => 96/100
  | 0, 0 => 1
  | 1, 1 => 1
  | 2, 2 => 1
  | _, _ => 0

/-- Relevance table of the C3 counterexample: the near-duplicates are highly
relevant (0.99), the distinct chunk is irrelevant (0). -/
def relCounter : Nat → ℚ
  | 0 => 99/100
  | 1 => 99/100
  | _ => 0

/-- Relevance table of the C3 witness: the distinct chunk (0.75) is at least
as relevant as the remaining near-duplicate (0.5). -/
def relWitness : Nat → ℚ
  | 0 => 1
  | 1 => 1/2
  | 2 => 3/4
  | _ => 0

/-- C3 counterexample: a pool of two near-duplicates (pairwise similarity
0.96 > 0.95) and one distinct chunk, with `limit = 2` and `λ = 0.7`: after
the first near-duplicate is selected, MMR picks the *second near-duplicate*
`1`, not the distinct chunk `2`, because the duplicates' relevance advantage
(0.99 vs 0) outweighs the diversity penalty.  The claim as stated is false. -/
theorem mmr_picks_duplicate_counterexample :
    95/100 < simPool 0 1 ∧ simPool 2 0 ≤ 95/100 ∧ simPool 2 1 ≤ 95/100 ∧
    applyMmrReranking 3 relCounter simPool 2 (7/10) = [0, 1] := by
  refine ⟨?_, ?_, ?_, ?_⟩
  · rw [show simPool 0 1 = 96/100 from rfl]; norm_num
  · rw [show simPool 2 0 = 0 from rfl]; norm_num
  · rw [show simPool 2 1 = 0 from rfl]; norm_num
  · have hcmp : ¬ (mmrScore relCounter simPool (7/10) [0] 1
        < mmrScore relCounter simPool (7/10) [0] 2) := by
      unfold mmrScore maxSimToSelected
      simp only [List.foldl_nil]
      rw [show relCounter 1 = 99/100 from rfl, show relCounter 2 = 0 from rfl,
        show simPool 1 0 = 96/100 from rfl, show simPool 2 0 = 0 from rfl]
      norm_num
    unfold applyMmrReranking
    rw [if_neg (by omega), show (List.range 3).erase 0 = [1, 2] from by decide]
    unfold mmrSelectAux
    unfold argmaxFirst
    simp only [List.foldl_cons, List.foldl_nil]
    rw [if_neg hcmp]
    rfl

/-- C3 witness: the amended MMR theorem at the concrete pool (near-duplicates
0 and 1, distinct chunk 2 with relevance `0.75 ≥ 0.5`): with duplicate 0
selected, the next pick is the distinct chunk 2. -/
theorem mmr_distinct_before_second_duplicate_witness :
    argmaxFirst (mmrScore relWitness simPool (7/10) [0]) [1, 2] = some 2 := by
  apply mmr_distinct_before_second_duplicate relWitness simPool
    (fun n => n = 0 ∨ n = 1) 2 [0] [1, 2]
  · rintro d d' (rfl | rfl) (rfl | rfl) hne
    · exact absurd rfl hne
    · rw [show simPool 0 1 = 96/100 from rfl]; norm_num
    · rw [show simPool 1 0 = 96/100 from rfl]; norm_num
    · exact absurd rfl hne
  · rintro d (rfl | rfl)
    · rw [show simPool 2 0 = 0 from rfl]; norm_num
    · rw [show simPool 2 1 = 0 from rfl]; norm_num
  · simp
  · intro j hj
    rw [List.mem_singleton] at hj
    subst hj
    exact Or.inl rfl
  · simp
  · intro j hj hjx
    have hj1 : j = 1 := by
      rcases List.mem_cons.mp hj with rfl | hj'
      · rfl
      · rw [List.mem_singleton] at hj'
        exact absurd hj' hjx
    subst hj1
    refine ⟨Or.inr rfl, by simp, ?_⟩
    rw [show relWitness 1 = 1/2 from rfl, show relWitness 2 = 3/4 from rfl]
    norm_num

/-! ## C8 -/

/-- C8: the stored-comparison lookup is symmetric in the document pair —
`get_by_documents(A, B)` and `get_by_documents(B, A)` return the same row —
and therefore `compare_documents(A, B)` returns the stored result of a
previous `(B, A)` comparison unchanged, without computing or storing a new
one. -/
theorem comparison_lookup_symmetric (A B : Nat) (store : List StoredComparison) :
    getByDocuments A B store = getByDocuments B A store ∧
    ∀ (c : StoredComparison) (compute : Nat → Nat → ComparisonResult) (now : Nat),
      getByDocuments B A store = .ok (some c) →
      compareDocuments A B store compute now = .ok (c.payload, store, false) := by
  have hfilt : store.filter (comparisonRowMatches A B)
      = store.filter (comparisonRowMatches B A) := by
    apply List.filter_congr
    intro c _
    unfold comparisonRowMatches
    exact decide_eq_decide.mpr or_comm
  have hsym : getByDocuments A B store = getByDocuments B A store := by
    unfold getByDocuments
    rw [hfilt]
  refine ⟨hsym, ?_⟩
  intro c compute now h
  unfold compareDocuments
  rw [hsym, h]

/-- The one stored comparison of the C8 witness scenario: documents 5 and 7
compared in the order `(5, 7)`. -/
def sampleStoredRow : StoredComparison :=
  { document_a_id := 5
    document_b_id := 7
    created_at := 0
    payload := { document_a_id := 5, document_b_id := 7,
                 text_changes := [], similarity_score := 1 } }

/-- Stored-comparison table holding only `sampleStoredRow`. -/
def sampleStore : List StoredComparison := [sampleStoredRow]

/-- A fresh-comparison oracle (never consulted in the witness scenario). -/
def sampleCompute : Nat → Nat → ComparisonResult :=
  fun a b => { document_a_id := a, document_b_id := b,
               text_changes := [], similarity_score := 0 }

/-- C8 witness: with the `(5, 7)` comparison stored, `compare_documents(7, 5)`
returns the stored payload, leaves the table unchanged, and does not compute
a fresh comparison. -/
theorem comparison_lookup_symmetric_witness :
    getByDocuments 7 5 sampleStore = getByDocuments 5 7 sampleStore ∧
    compareDocuments 7 5 sampleStore sampleCompute 1
      = .ok (sampleStoredRow.payload, sampleStore, false) :=
  ⟨(comparison_lookup_symmetric 7 5 sampleStore).1,
   (comparison_lookup_symmetric 7 5 sampleStore).2 sampleStoredRow sampleCompute 1 rfl⟩

/-! ## C9 -/

/-- Modelled from the amended claim: the similarity score is a function of
the total change count alone — `0` changes give `1.0`, otherwise fewer than
10 give `0.9`, fewer than 50 give `0.7`, fewer than 100 give `0.5`, and
anything else gives `0.3`. -/
def specSimilarityBuckets (n : Nat) : ℚ :=
  if n = 0 then 1
  else if n < 10 then 9/10
  else if n < 50 then 7/10
  else if n < 100 then 1/2
  else 3/10

/-- C9 (amended): the comparison similarity score is determined solely by the
total change count, via the fixed buckets — except that an *empty* change
list yields `1.0`, not the `0.9` of the `< 10` bucket. -/
theorem similarityScore_bucketed (cs : List TextChange) :
    calculateSimilarityScore cs = specSimilarityBuckets cs.length := by
  unfold calculateSimilarityScore specSimilarityBuckets
  by_cases h : cs = []
  · subst h; rfl
  · have hlen : ¬ cs.length = 0 := fun h0 => h (List.length_eq_zero.mp h0)
    rw [if_neg h, if_neg hlen]

/-- C9 counterexample: the empty change list has fewer than 10 changes, yet
the score is `1.0`, not the claimed `0.9`. -/
theorem similarityScore_empty_counterexample :
    calculateSimilarityScore [] = 1 ∧ ¬ calculateSimilarityScore [] = 9/10 := by
  constructor
  · rfl
  · rw [show calculateSimilarityScore [] = 1 from rfl]
    norm_num

end ClauseForge
